import Mathlib

/-!
Shallow embedding of the DPoR consensus core (cpchain), covering:

* the crypto helpers `sigHash`, `ecrecover`, `acceptSigs`, `percentagePBFT`
  (src/unnamed/part_003),
* the committee snapshot `DporSnapshot` with `copy`, `apply`, `applyHeader`,
  `updateCandidates`, `updateRpts`, `updateView`, `signerRound`, `isSigner`,
  `isLeader` (src/unnamed/part_001),
* the seal verifier `verifySeal` and the signer `signHeader`
  (src/consensus/dpor/dpor_helper.go),
* the LBFT2 message routing of the protocol handler `handleLBFT2Msg`
  (src/unnamed/part_000).

Machine integers (uint64, addresses, hashes) are modelled as `Nat`; byte
strings as `List Nat`.  Keccak-256 and ECDSA recovery are not part of the
repository source; they are passed in as abstract function parameters
(`keccak`, `recover`, `hashFn`), so every theorem below holds for every
choice of these primitives, and witnesses instantiate them concretely.
-/

namespace DporModel

/-- Address is a 20-byte identifier; modelled as a natural number. -/
abbrev Address := Nat

/-- Hash is a 32-byte Keccak-256 digest; modelled as a natural number. -/
abbrev HashV := Nat

/-- Byte strings are lists of (byte-valued) naturals. -/
abbrev Bytes := List Nat

/-- Number of blocks between checkpoints (src/consensus/dpor/dpor.go, `checkpointInterval = 4`). -/
def checkpointInterval : Nat := 4

/-- Quorum numerator constant (src/consensus/dpor/dpor.go, `pctA = 2`). -/
def pctA : Nat := 2

/-- Quorum denominator constant (src/consensus/dpor/dpor.go, `pctB = 3`). -/
def pctB : Nat := 3

/-- Modelled from the spec: the 65-byte leader seal / signature length
(`extraSeal`); the constant definition is not under src/, the spec fixes
a `Signature` to 65 bytes (r,s,v) and the wire format tail to 65 bytes. -/
def extraSeal : Nat := 65

/-- Modelled from the spec: the 32-byte vanity prefix of `header.extra`
(`extraVanity`); the constant definition is not under src/, the spec fixes
the vanity prefix to 32 bytes. -/
def extraVanity : Nat := 32

/-- Modelled from the spec: difficulty constant for an in-turn leader
(`diffInTurn`); its numeric value is not under src/, only distinctness from
`diffNoTurn` matters below. -/
def diffInTurn : Nat := 2

/-- Modelled from the spec: difficulty constant for an out-of-turn leader
(`diffNoTurn`). -/
def diffNoTurn : Nat := 1

/-- Block header, with exactly the fields the dpor code reads:
`ParentHash, Coinbase, StateRoot, TxsRoot, ReceiptsRoot, LogsBloom,
Difficulty, Number, GasLimit, GasUsed, Time, Extra, Extra2, MixHash, Nonce`.
`extra2` holds the decoded signature-vector bytes (the payload of
`header.DecodedExtra2(types.TypeExtra2SignaturesDecoder)`). -/
structure Header where
  parentHash : HashV
  coinbase : Address
  stateRoot : HashV
  txsRoot : HashV
  receiptsRoot : HashV
  logsBloom : Nat
  difficulty : Nat
  number : Nat
  gasLimit : Nat
  gasUsed : Nat
  time : Nat
  extra : Bytes
  extra2 : Bytes
  mixHash : HashV
  nonce : Nat
deriving DecidableEq, Repr

/-- Error values of the dpor package (src error variables, plus a
distinguished `sigHashPanic` value standing for the runtime panic that
`sigHash` raises on extra data shorter than 65 bytes). -/
inductive DporError where
  | unknownBlock
  | missingSignature
  | invalidSigBytes
  | badSignature
  | noSigsInCache
  | invalidDifficulty
  | signerNotInCommittee
  | genesisBlockNumber
  | unauthorized
  | notEnoughSigs
  | invalidVotingChain
  | multiBlocksInOneHeight
  | fakerFail
  | nilSignaturesEntry
  | sigHashPanic
deriving DecidableEq, Repr

/-- Field tuple that `sigHash` feeds (RLP-encoded) into Keccak-256:
all header fields except the signature vector (`extra2`), with only the
prefix `Extra[:len(Extra)-65]` of the extra data
(src/unnamed/part_003, `sigHash`, lines 52..73). -/
structure SigHashFields where
  parentHash : HashV
  coinbase : Address
  stateRoot : HashV
  txsRoot : HashV
  receiptsRoot : HashV
  logsBloom : Nat
  difficulty : Nat
  number : Nat
  gasLimit : Nat
  gasUsed : Nat
  time : Nat
  extraNoSeal : Bytes
  mixHash : HashV
  nonce : Nat
deriving DecidableEq, Repr

/-- Field selection of `sigHash` (src/unnamed/part_003 lines 52..73).
Returns `none` exactly when `len(header.Extra) < 65`, in which case the Go
code panics (`header.Extra[:len(header.Extra)-65]` with a negative bound). -/
def sigHashFields (h : Header) : Option SigHashFields :=
  if h.extra.length < extraSeal then none
  else some
    { parentHash := h.parentHash
      coinbase := h.coinbase
      stateRoot := h.stateRoot
      txsRoot := h.txsRoot
      receiptsRoot := h.receiptsRoot
      logsBloom := h.logsBloom
      difficulty := h.difficulty
      number := h.number
      gasLimit := h.gasLimit
      gasUsed := h.gasUsed
      time := h.time
      extraNoSeal := h.extra.take (h.extra.length - extraSeal)
      mixHash := h.mixHash
      nonce := h.nonce }

/-- The digest used as signing input: Keccak-256 over the RLP encoding of
`sigHashFields`; the encoding-and-hash step is the abstract parameter
`keccak` (deterministic digest of the listed fields). -/
def sigHash (keccak : SigHashFields → HashV) (h : Header) : Option HashV :=
  (sigHashFields h).map keccak

/-- Per-header signature map of the signature cache: recovered signer
address to 65-byte signature (the `map[common.Address][]byte` stored under
the header hash in `sigcache`). -/
abbrev SigMap := List (Address × Bytes)

/-- Map write `sigs[addr] = sig` on the per-header signature map. -/
def sigMapInsert (m : SigMap) (a : Address) (sig : Bytes) : SigMap :=
  match m with
  | [] => [(a, sig)]
  | (b, s) :: rest =>
    if b = a then (a, sig) :: rest else (b, s) :: sigMapInsert rest a sig

/-- The signature cache: header hash to per-header signature map
(the `lru.ARCCache` `sigcache`, capacity aside). -/
abbrev SigCache := List (HashV × SigMap)

/-- Cache write `sigcache[hash][addr] = sig`, creating the per-header map
when the hash is not yet cached (the add-or-update sequence of `ecrecover`,
src/unnamed/part_003 lines 111..117 and 139..141). -/
def sigCacheAdd (c : SigCache) (hash : HashV) (a : Address) (sig : Bytes) : SigCache :=
  match c with
  | [] => [(hash, [(a, sig)])]
  | (h, m) :: rest =>
    if h = hash then (h, sigMapInsert m a sig) :: rest
    else (h, m) :: sigCacheAdd rest hash a sig

/-- Slices `signersSig[i*65:(i+1)*65]` for `i < len(signersSig)/65`,
mirroring the recovery loop bounds of `ecrecover`. -/
def sigChunks (l : Bytes) : List Bytes :=
  (List.range (l.length / extraSeal)).map (fun i => (l.drop (i * extraSeal)).take extraSeal)

/-- Recovery loop of `ecrecover` over the signature chunks
(src/unnamed/part_003 lines 125..145): an all-zero chunk is skipped, any
other chunk is recovered (errors abort, with the cache updates made so far
kept) and the recovered signer is appended and cached. -/
def recoverSigners (recover : HashV → Bytes → Except Unit Address) (digest : HashV)
    (hash : HashV) : List Bytes → List Address → SigCache →
    Except DporError (List Address) × SigCache
  | [], signers, cache => (.ok signers, cache)
  | c :: cs, signers, cache =>
    if c = List.replicate extraSeal 0 then
      recoverSigners recover digest hash cs signers cache
    else
      match recover digest c with
      | .error _ => (.error .badSignature, cache)
      | .ok signer =>
        recoverSigners recover digest hash cs (signers ++ [signer])
          (sigCacheAdd cache hash signer c)

/-- Extraction of (leader, signer list) from a signed header
(src/unnamed/part_003, `ecrecover`, lines 77..147).  `recover` abstracts
`crypto.Ecrecover` followed by the Keccak address truncation; `hashFn`
abstracts `header.Hash()`.  The updated signature cache is returned in the
second component.  The `sigHashPanic` error marks the (unreachable) case in
which `sigHash` would panic. -/
def ecrecover (recover : HashV → Bytes → Except Unit Address)
    (keccak : SigHashFields → HashV) (hashFn : Header → HashV)
    (h : Header) (cache : SigCache) :
    Except DporError (Address × List Address) × SigCache :=
  let hash := hashFn h
  if h.extra.length < extraSeal then (.error .missingSignature, cache)
  else
    let leaderSig := h.extra.drop (h.extra.length - extraSeal)
    let signersSig := h.extra2
    match sigHash keccak h with
    | none => (.error .sigHashPanic, cache)
    | some digest =>
      match recover digest leaderSig with
      | .error _ => (.error .badSignature, cache)
      | .ok leader =>
        let cache1 := sigCacheAdd cache hash leader leaderSig
        if signersSig.length % extraSeal ≠ 0 then (.error .invalidSigBytes, cache1)
        else
          match recoverSigners recover digest hash (sigChunks signersSig) [] cache1 with
          | (.error e, cache2) => (.error e, cache2)
          | (.ok signers, cache2) => (.ok (leader, signers), cache2)

/-- Quorum predicate `percentagePBFT` (src/unnamed/part_003 lines 179..181):
`3 * n > 2 * N`. -/
def percentagePBFT (n N : Nat) : Bool :=
  pctB * n > pctA * N

/-- Count of committee members with a cached signature for `hash`
(the `numSigs` loop of `acceptSigs`). -/
def sigCountOf (cache : SigCache) (hash : HashV) (signers : List Address) : Nat :=
  match cache.lookup hash with
  | none => 0
  | some s => signers.countP (fun signer => (s.lookup signer).isSome)

/-- Quorum check over the cached signatures of a header
(src/unnamed/part_003, `acceptSigs`, lines 150..176). -/
def acceptSigs (hashFn : Header → HashV) (h : Header) (cache : SigCache)
    (signers : List Address) (epochL : Nat) : Except DporError Bool :=
  let hash := hashFn h
  match cache.lookup hash with
  | none => .error .noSigsInCache
  | some s =>
    .ok (percentagePBFT (signers.countP (fun signer => (s.lookup signer).isSome)) epochL)

/-- Consensus engine parameters used by the snapshot (`params.DporConfig`);
only the epoch length matters to the embedded operations. -/
structure DporConfig where
  epoch : Nat
deriving DecidableEq, Repr

/-- Reputation value of one candidate (`rpt.RPT`). -/
structure RPT where
  address : Address
  rpt : Nat
deriving DecidableEq, Repr

/-- Reputation list (`rpt.RPTs`). -/
abbrev RPTs := List RPT

/-- Election function type: `election.Elect(rpts, seed, viewLength)`.
Modelled from the spec: the election source is not under src/; per spec
section 4.2 it deterministically returns an ordered sequence of exactly
`viewLength` distinct addresses.  It is kept abstract as a parameter. -/
abbrev ElectFn := RPTs → Int → Nat → List Address

/-- Authorization snapshot (src/unnamed/part_001, `DporSnapshot`):
fields `Number`, `Hash`, `Signers`, `Candidates`, `Recents`
(the `config` pointer is inlined as a value). -/
structure DporSnapshot where
  config : DporConfig
  number : Nat
  hash : HashV
  signers : List Address
  candidates : List Address
  recents : List (Nat × Address)
deriving DecidableEq, Repr

/-- Lower 64 bits of a nonnegative big integer as a signed 64-bit value:
the semantics of `header.Hash().Big().Int64()` used as election seed. -/
def int64OfNat (n : Nat) : Int :=
  let low : Nat := n % 2 ^ 64
  if low < 2 ^ 63 then (low : Int) else (low : Int) - 2 ^ 64

/-- Deep copy of a snapshot (src/unnamed/part_001, `copy`, lines 113..129).
The Go code allocates `Signers` with length `config.Epoch` and copies the
old entries into it, so the copy's signer list is the old one truncated or
zero-padded to exactly `config.Epoch` entries; candidates and recents are
copied unchanged. -/
def DporSnapshot.copySnap (s : DporSnapshot) : DporSnapshot :=
  { s with signers := (List.range s.config.epoch).map (fun i => s.signers.getD i 0) }

/-- Candidate refresh (src/unnamed/part_001, `updateCandidates`, lines
187..198): the source is stubbed to three hard-coded campaign addresses.
The returned error is always nil in the source. -/
def DporSnapshot.updateCandidates (s : DporSnapshot) (_header : Header) : DporSnapshot :=
  { s with candidates :=
      [0xe94b7b6c5a0e526a4d97f9768ad6097bde25c62a,
       0xc05302acebd0730e3a18a058d7d1cb1204c4a092,
       0xef3dd127de235f15ffb4fc0d71469d1339df6465] }

/-- Reputation refresh (src/unnamed/part_001, `updateRpts`, lines 201..226):
the source is stubbed to three hard-coded reputation records and its error
result is always nil. -/
def DporSnapshot.updateRpts (_s : DporSnapshot) (_header : Header) : RPTs :=
  [{ address := 0xe94b7b6c5a0e526a4d97f9768ad6097bde25c62a, rpt := 50 },
   { address := 0xc05302acebd0730e3a18a058d7d1cb1204c4a092, rpt := 100 },
   { address := 0xef3dd127de235f15ffb4fc0d71469d1339df6465, rpt := 20 }]

/-- Committee update from an election result (src/unnamed/part_001,
`updateView`, lines 229..234): `Signers = election.Elect(rpts, seed, viewLength)`. -/
def DporSnapshot.updateView (s : DporSnapshot) (elect : ElectFn) (rpts : RPTs)
    (seed : Int) (viewLength : Nat) : DporSnapshot :=
  { s with signers := elect rpts seed viewLength }

/-- Application of one header to a snapshot (src/unnamed/part_001,
`applyHeader`, lines 166..184): update number and hash, refresh candidates,
and at a checkpoint (`Number % checkpointInterval == 0`) re-run the election
with `seed = header.Hash().Big().Int64()` and `viewLength = config.Epoch`.
The source's error result is always nil (its only error source,
`updateRpts`, always returns a nil error). -/
def DporSnapshot.applyHeader (elect : ElectFn) (hashFn : Header → HashV)
    (s : DporSnapshot) (header : Header) : DporSnapshot :=
  let s := { s with number := header.number, hash := hashFn header }
  let s := s.updateCandidates header
  if s.number % checkpointInterval = 0 then
    let rpts := s.updateRpts header
    let seed := int64OfNat (hashFn header)
    let viewLength := s.config.epoch
    s.updateView elect rpts seed viewLength
  else s

/-- Pairwise number-contiguity check of `apply` (src/unnamed/part_001 lines
139..143): every header's number is its predecessor's plus one. -/
def contiguousNumbers : List Header → Bool
  | h1 :: h2 :: rest => decide (h2.number = h1.number + 1) && contiguousNumbers (h2 :: rest)
  | _ => true

/-- Derivation of a new snapshot from a header sequence
(src/unnamed/part_001, `apply`, lines 133..163): empty input returns the
snapshot itself; the numbers must be pairwise contiguous and start at
`Number + 1`; then the headers are applied in order to a copy and the final
number and hash are taken from the last header. -/
def DporSnapshot.apply (elect : ElectFn) (hashFn : Header → HashV)
    (s : DporSnapshot) (headers : List Header) : Except DporError DporSnapshot :=
  match headers with
  | [] => .ok s
  | h0 :: rest =>
    if !contiguousNumbers (h0 :: rest) then .error .invalidVotingChain
    else if h0.number ≠ s.number + 1 then .error .invalidVotingChain
    else
      let snap := (h0 :: rest).foldl (fun acc hd => acc.applyHeader elect hashFn hd) s.copySnap
      let last := rest.getLastD h0
      .ok { snap with number := last.number, hash := hashFn last }

/-- Round lookup loop of `signerRound` (src/unnamed/part_001 lines 241..248):
first index of the signer in the committee, or `errSignerNotInCommittee`. -/
def signerRoundAux (signer : Address) : List Address → Nat → Except DporError Nat
  | [], _ => .error .signerNotInCommittee
  | a :: rest, round => if a = signer then .ok round else signerRoundAux signer rest (round + 1)

/-- Committee round of a signer (src/unnamed/part_001, `signerRound`). -/
def DporSnapshot.signerRound (s : DporSnapshot) (signer : Address) : Except DporError Nat :=
  signerRoundAux signer s.signers 0

/-- Committee membership (src/unnamed/part_001, `isSigner`, lines 250..253). -/
def DporSnapshot.isSigner (s : DporSnapshot) (signer : Address) : Bool :=
  (s.signerRound signer).toOption.isSome

/-- Leader test (src/unnamed/part_001, `isLeader`, lines 255..264):
genesis has no leader; otherwise the signer's round must equal
`(number - 1) % config.Epoch`.  The Go result pair `(bool, error)` is
modelled as `Except` (the bool is `false` whenever the error is non-nil). -/
def DporSnapshot.isLeader (s : DporSnapshot) (signer : Address) (number : Nat) :
    Except DporError Bool :=
  if number = 0 then .error .genesisBlockNumber
  else
    match s.signerRound signer with
    | .error e => .error e
    | .ok round => .ok (decide (round = (number - 1) % s.config.epoch))

/-- Engine mode (src/consensus/dpor/backend/proposer.go, `Mode`). -/
inductive Mode where
  | NormalMode
  | FakeMode
  | DoNothingFakeMode
deriving DecidableEq, Repr

/-- Value component of a Go `(bool, error)` result whose bool is `false`
whenever the error is non-nil; used for `inturn, _ := snap.IsLeaderOf(...)`. -/
def exceptBoolValue : Except DporError Bool → Bool
  | .ok b => b
  | .error _ => false

/-- Modelled from the spec: `snap.SignersOf(number)`, the proposer committee
of the snapshot for the verified height.  The method body is not under
src/; per the spec (section 3, Snapshot) the snapshot carries the proposer
sequence of the current term, which is the `Signers` field, matching the
in-src variant `DporSnapshot.signers` (src/unnamed/part_001 lines 237..239). -/
def DporSnapshot.signersOf (s : DporSnapshot) (_number : Nat) : List Address :=
  s.signers

/-- Modelled from the spec: `snap.IsLeaderOf(signer, number)`.  The method
body is not under src/; per the spec (section 4.3, `is_leader`) it is the
leader test of the snapshot, matching the in-src variant
`DporSnapshot.isLeader` (src/unnamed/part_001 lines 255..264). -/
def DporSnapshot.isLeaderOf (s : DporSnapshot) (signer : Address) (number : Nat) :
    Except DporError Bool :=
  s.isLeader signer number

/-- Seal verification (src/consensus/dpor/dpor_helper.go, `verifySeal`,
lines 235..311).  The parent-snapshot resolution (`dh.snapshot`) is passed
in as its result `snapRes`; `epoch` is `dpor.config.Epoch`; the signature
cache is threaded explicitly and returned updated. -/
def verifySeal (recover : HashV → Bytes → Except Unit Address)
    (keccak : SigHashFields → HashV) (hashFn : Header → HashV)
    (fake : Mode) (fakeFail : Nat) (snapRes : Except DporError DporSnapshot)
    (epoch : Nat) (header : Header) (cache : SigCache) :
    Except DporError Unit × SigCache :=
  let number := header.number
  if number = 0 then (.error .unknownBlock, cache)
  else if fake = Mode.FakeMode ∨ fake = Mode.DoNothingFakeMode then
    (if fakeFail = number then .error .fakerFail else .ok (), cache)
  else
    match ecrecover recover keccak hashFn header cache with
    | (.error e, cache1) => (.error e, cache1)
    | (.ok (leader, _signers), cache1) =>
      match snapRes with
      | .error e => (.error e, cache1)
      | .ok snap =>
        let inturn := exceptBoolValue (snap.isLeaderOf leader number)
        if inturn ∧ header.difficulty ≠ diffInTurn then (.error .invalidDifficulty, cache1)
        else if ¬ inturn ∧ header.difficulty ≠ diffNoTurn then
          (.error .invalidDifficulty, cache1)
        else
          match snap.isLeaderOf leader number with
          | .error e => (.error e, cache1)
          | .ok ok =>
            if ¬ ok then (.error .unauthorized, cache1)
            else
              match acceptSigs hashFn header cache1 (snap.signersOf number) epoch with
              | .error e => (.error e, cache1)
              | .ok accept =>
                (if accept then .ok () else .error .notEnoughSigs, cache1)

/-- Byte copy `copy(allSigs[round*65:(round+1)*65], sig)` into the flat
signature vector: overwrites `min(65, len(sig))` bytes at the slot offset. -/
def writeSlot (all : Bytes) (round : Nat) (sig : Bytes) : Bytes :=
  all.take (round * extraSeal) ++ sig.take extraSeal
    ++ all.drop (round * extraSeal + (sig.take extraSeal).length)

/-- Signature-collection loop of `signHeader` (src/consensus/dpor/
dpor_helper.go lines 327..333): for each committee round, copy the cached
signature of that round's signer into the vector.  `sigsEntry` is the
`*Signatures` record fetched from `dpor.signatures` for the header hash;
the Go type assertion on a missing (nil) record panics, modelled as the
`nilSignaturesEntry` error. -/
def fillSigs (sigsEntry : Option SigMap) (allSigs : Bytes) :
    List (Nat × Address) → Except DporError Bytes
  | [] => .ok allSigs
  | (round, signer) :: rest =>
    match sigsEntry with
    | none => .error .nilSignaturesEntry
    | some m =>
      match m.lookup signer with
      | some sig => fillSigs sigsEntry (writeSlot allSigs round sig) rest
      | none => fillSigs sigsEntry allSigs rest

/-- Signing tail of `signHeader` (src/consensus/dpor/dpor_helper.go lines
349..365): compute the signing digest, sign it, copy the own signature into
the own round's slot and re-encode the vector. -/
def signHeaderSign (keccak : SigHashFields → HashV)
    (signFn : HashV → Except Unit Bytes) (self : Address)
    (signedBlocks : List (Nat × HashV)) (snap : DporSnapshot)
    (header1 : Header) (allSigs : Bytes) :
    Except DporError Header × List (Nat × HashV) :=
  match sigHash keccak header1 with
  | none => (.error .sigHashPanic, signedBlocks)
  | some digest =>
    match signFn digest with
    | .error _ => (.error .badSignature, signedBlocks)
    | .ok sighash =>
      let round := ((snap.signerRound self).toOption).getD 0
      let allSigs2 := writeSlot allSigs round sighash
      (.ok { header1 with extra2 := allSigs2 }, signedBlocks)

/-- Header signing (src/consensus/dpor/dpor_helper.go, `signHeader`, lines
314..368).  The parent snapshot is passed resolved; `sigsEntry` is the
cached `*Signatures` record for the header hash; `signedBlocks` is the
process-wide height-to-hash map `dpor.signedBlocks`; `signFn` abstracts the
account signing function.  `IsSignerOf`/`SignerRoundOf` are modelled from
the spec as committee membership and round of the snapshot (their bodies
are not under src/), matching `DporSnapshot.isSigner` and
`DporSnapshot.signerRound` (src/unnamed/part_001).  The returned header
carries the updated signature vector in `extra2`.  Note that the source
reads `dpor.signedBlocks` but never writes it, so the map is returned to
the caller unchanged. -/
def signHeader (keccak : SigHashFields → HashV) (hashFn : Header → HashV)
    (signFn : HashV → Except Unit Bytes) (self : Address)
    (signedBlocks : List (Nat × HashV)) (snap : DporSnapshot)
    (sigsEntry : Option SigMap) (header : Header) :
    Except DporError Header × List (Nat × HashV) :=
  let number := header.number
  let allSigs0 : Bytes := List.replicate (snap.config.epoch * extraSeal) 0
  match fillSigs sigsEntry allSigs0 (snap.signersOf number).enum with
  | .error e => (.error e, signedBlocks)
  | .ok allSigs =>
    let header1 := { header with extra2 := allSigs }
    if snap.isSigner self then
      match signedBlocks.lookup number with
      | some signedHash =>
        if signedHash ≠ hashFn header1 then (.error .multiBlocksInOneHeight, signedBlocks)
        else signHeaderSign keccak signFn self signedBlocks snap header1 allSigs
      | none => signHeaderSign keccak signFn self signedBlocks snap header1 allSigs
    else (.error .signerNotInCommittee, signedBlocks)

/-- Message codes handled by the LBFT2 handler (src/unnamed/part_000). -/
inductive MsgCode where
  | noMsgCode
  | preprepareMsgCode
  | prepareMsgCode
  | commitMsgCode
  | prepareAndCommitMsgCode
  | validateMsgCode
  | impeachPreprepareMsgCode
  | impeachPrepareMsgCode
  | impeachCommitMsgCode
  | impeachPrepareAndCommitMsgCode
  | impeachValidateMsgCode
deriving DecidableEq, Repr

/-- Actions attached to FSM outputs (src/unnamed/part_000). -/
inductive Action where
  | noAction
  | broadcastMsgAction
  | broadcastAndInsertBlockAction
deriving DecidableEq, Repr

/-- Error classification of an FSM call as the handler distinguishes it:
nil, `consensus.ErrUnknownAncestor`, or any other error. -/
inductive FsmErr where
  | noErr
  | unknownAncestor
  | otherErr
deriving DecidableEq, Repr

/-- Result quadruple of `vh.fsm.FSM(input, msgCode)` as far as the handler
inspects it: whether the output list is non-nil, the action, the output
message code, and the error class. -/
structure FsmOut where
  hasOutput : Bool
  action : Action
  code : MsgCode
  err : FsmErr
deriving DecidableEq, Repr

/-- Observable effects of one `handleLBFT2Msg` call
(src/unnamed/part_000, lines 184..430). -/
structure HandlerTrace where
  syncRequested : Bool
  passedToFsm : Bool
  bufferedUnknownAncestor : Bool
  broadcasted : Bool
  insertedAndBroadcast : Bool
deriving DecidableEq, Repr

/-- Message-code set for which a `BroadcastMsgAction` output is actually
broadcast by the handler's output switch. -/
def broadcastCodes : List MsgCode :=
  [.prepareMsgCode, .commitMsgCode, .prepareAndCommitMsgCode, .validateMsgCode,
   .impeachPrepareMsgCode, .impeachCommitMsgCode, .impeachPrepareAndCommitMsgCode,
   .impeachValidateMsgCode]

/-- Message-code set for which a `BroadcastAndInsertBlockAction` output is
inserted into the chain and broadcast. -/
def insertCodes : List MsgCode :=
  [.validateMsgCode, .impeachValidateMsgCode]

/-- Routing core of `Handler.handleLBFT2Msg` (src/unnamed/part_000, lines
184..430), after the inbound message has been decoded to an input carrying
block number `number`; `current` is `vh.dpor.GetCurrentBlock().NumberU64()`,
`hasPeer` states whether the delivering peer `p` is non-nil, and `fsm`
abstracts `vh.fsm.FSM` (the FSM implementation is not under src/).
In source order: a sync from the peer is requested when
`number > current + 1` and the peer is non-nil; a message with
`number < current` is then dropped; an impeach-preprepare from a remote
peer is dropped; otherwise the FSM runs, an unknown-ancestor error buffers
the input's block in `vh.unknownAncestorBlocks` and processing continues,
any other error stops, and the output is broadcast / inserted according to
its action and message code. -/
def handleLBFT2Msg (fsm : Nat → MsgCode → FsmOut) (number current : Nat)
    (hasPeer : Bool) (code : MsgCode) : HandlerTrace :=
  let sync := hasPeer && decide (number > current + 1)
  if number < current then
    { syncRequested := sync, passedToFsm := false, bufferedUnknownAncestor := false,
      broadcasted := false, insertedAndBroadcast := false }
  else if code = MsgCode.impeachPreprepareMsgCode ∧ hasPeer then
    { syncRequested := sync, passedToFsm := false, bufferedUnknownAncestor := false,
      broadcasted := false, insertedAndBroadcast := false }
  else
    let r := fsm number code
    match r.err with
    | .otherErr =>
      { syncRequested := sync, passedToFsm := true, bufferedUnknownAncestor := false,
        broadcasted := false, insertedAndBroadcast := false }
    | e =>
      let buf := decide (e = FsmErr.unknownAncestor)
      if !r.hasOutput then
        { syncRequested := sync, passedToFsm := true, bufferedUnknownAncestor := buf,
          broadcasted := false, insertedAndBroadcast := false }
      else
        match r.action with
        | .broadcastMsgAction =>
          { syncRequested := sync, passedToFsm := true, bufferedUnknownAncestor := buf,
            broadcasted := decide (r.code ∈ broadcastCodes), insertedAndBroadcast := false }
        | .broadcastAndInsertBlockAction =>
          { syncRequested := sync, passedToFsm := true, bufferedUnknownAncestor := buf,
            broadcasted := false, insertedAndBroadcast := decide (r.code ∈ insertCodes) }
        | .noAction =>
          { syncRequested := sync, passedToFsm := true, bufferedUnknownAncestor := buf,
            broadcasted := false, insertedAndBroadcast := false }

/-- Generic success test on an `Except` result. -/
def exceptIsOk {α : Type} : Except DporError α → Bool
  | .ok _ => true
  | .error _ => false

/-- Test whether an `Except` result is a specific error. -/
def exceptErrEq {α : Type} (e : Except DporError α) (d : DporError) : Bool :=
  match e with
  | .error x => decide (x = d)
  | .ok _ => false

/-- Decidable equality of `Except` results, for concrete evaluation. -/
instance exceptDecEq {ε α : Type} [DecidableEq ε] [DecidableEq α] :
    DecidableEq (Except ε α)
  | .error a, .error b =>
    if h : a = b then .isTrue (by rw [h])
    else .isFalse (by intro hc; injection hc; contradiction)
  | .error _, .ok _ => .isFalse (fun hc => Except.noConfusion hc)
  | .ok _, .error _ => .isFalse (fun hc => Except.noConfusion hc)
  | .ok a, .ok b =>
    if h : a = b then .isTrue (by rw [h])
    else .isFalse (by intro hc; injection hc; contradiction)

/-! Concrete instantiations of the abstract primitives, used by witnesses
and counterexamples. -/

/-- Concrete header-hash function for witnesses: hashes to the block number. -/
def hashFn0 : Header → HashV := fun h => h.number

/-- Concrete header-hash function for witnesses: hashes to the nonce, so two
headers with the same number but different nonces have different hashes. -/
def hashFnNonce : Header → HashV := fun h => h.nonce

/-- Concrete digest function for witnesses. -/
def keccakW : SigHashFields → HashV := fun f => f.number + f.extraNoSeal.length

/-- Concrete signature-recovery function for witnesses: always recovers
address 1. -/
def recover0 : HashV → Bytes → Except Unit Address := fun _ _ => .ok 1

/-- Concrete election function for witnesses: returns `viewLength` copies of
address 0 (satisfying the length contract of the spec). -/
def elect0 : ElectFn := fun _ _ vl => List.replicate vl 0

/-- Concrete account signing function for witnesses. -/
def signFn0 : HashV → Except Unit Bytes := fun _ => .ok (List.replicate extraSeal 1)

/-! ### C10 — applying an empty header sequence -/

/-- C10: for every snapshot `s`, `apply(s, [])` succeeds and returns `s`
itself, with every field unchanged (src/unnamed/part_001 lines 133..137). -/
theorem apply_nil_id (elect : ElectFn) (hashFn : Header → HashV) (s : DporSnapshot) :
    DporSnapshot.apply elect hashFn s [] = Except.ok s := rfl

/-! ### C4 — sigHash ignores the seal and the signature vector -/

/-- C4: for headers with at least 65 bytes of extra data, the signing digest
is invariant under any mutation of the last 65 bytes of `extra` and any
mutation of the signature-vector field `extra2`: two headers that agree on
all other fields and on `Extra[:len-65]` have the same `sigHash`, for every
digest function. -/
theorem sigHash_seal_invariant (keccak : SigHashFields → HashV) (h1 h2 : Header)
    (hlen1 : extraSeal ≤ h1.extra.length) (hlen2 : extraSeal ≤ h2.extra.length)
    (hfields : h1.parentHash = h2.parentHash ∧ h1.coinbase = h2.coinbase ∧
      h1.stateRoot = h2.stateRoot ∧ h1.txsRoot = h2.txsRoot ∧
      h1.receiptsRoot = h2.receiptsRoot ∧ h1.logsBloom = h2.logsBloom ∧
      h1.difficulty = h2.difficulty ∧ h1.number = h2.number ∧
      h1.gasLimit = h2.gasLimit ∧ h1.gasUsed = h2.gasUsed ∧ h1.time = h2.time ∧
      h1.mixHash = h2.mixHash ∧ h1.nonce = h2.nonce)
    (hpre : h1.extra.take (h1.extra.length - extraSeal)
          = h2.extra.take (h2.extra.length - extraSeal)) :
    sigHash keccak h1 = sigHash keccak h2 := by
  obtain ⟨e1, e2, e3, e4, e5, e6, e7, e8, e9, e10, e11, e12, e13⟩ := hfields
  have hf : sigHashFields h1 = sigHashFields h2 := by
    unfold sigHashFields
    rw [if_neg (by omega), if_neg (by omega)]
    simp only [Option.some.injEq, SigHashFields.mk.injEq]
    exact ⟨e1, e2, e3, e4, e5, e6, e7, e8, e9, e10, e11, hpre, e12, e13⟩
  unfold sigHash
  rw [hf]

/-- Witness for C4: two concrete headers differing only in the seal bytes of
`extra` and in `extra2` have the same signing digest. -/
theorem sigHash_seal_invariant_witness :
    sigHash keccakW
        { parentHash := 3, coinbase := 4, stateRoot := 5, txsRoot := 6,
          receiptsRoot := 7, logsBloom := 8, difficulty := 2, number := 9,
          gasLimit := 10, gasUsed := 11, time := 12,
          extra := 77 :: List.replicate extraSeal 0, extra2 := [1, 2, 3],
          mixHash := 0, nonce := 13 }
      = sigHash keccakW
        { parentHash := 3, coinbase := 4, stateRoot := 5, txsRoot := 6,
          receiptsRoot := 7, logsBloom := 8, difficulty := 2, number := 9,
          gasLimit := 10, gasUsed := 11, time := 12,
          extra := 77 :: List.replicate extraSeal 255, extra2 := [],
          mixHash := 0, nonce := 13 } :=
  sigHash_seal_invariant keccakW _ _ (by decide) (by decide)
    (by refine ⟨rfl, rfl, rfl, rfl, rfl, rfl, rfl, rfl, rfl, rfl, rfl, rfl, rfl⟩)
    (by decide)

/-! ### C9 — ecrecover is total and guards the sigHash panic -/

/-- Error results of the signature recovery loop are always `badSignature`,
never the sigHash panic marker. -/
theorem recoverSigners_no_panic (recover : HashV → Bytes → Except Unit Address)
    (digest hash : HashV) :
    ∀ (cs : List Bytes) (signers : List Address) (cache : SigCache),
      (recoverSigners recover digest hash cs signers cache).1
        ≠ Except.error DporError.sigHashPanic := by
  intro cs
  induction cs with
  | nil => intro signers cache; simp [recoverSigners]
  | cons c rest ih =>
    intro signers cache
    unfold recoverSigners
    by_cases hc : c = List.replicate extraSeal 0
    · simpa [hc] using ih signers cache
    · rw [if_neg hc]
      cases hr : recover digest c with
      | error e => simp
      | ok signer => simpa using ih (signers ++ [signer]) (sigCacheAdd cache hash signer c)

/-- C9: for every header whose `extra` field is shorter than 65 bytes,
`ecrecover` returns the missing-signature error; and for every header at
all, `ecrecover` never reaches the panic of `sigHash` on short extra data
(the length guard runs first), so it is total. -/
theorem ecrecover_total (recover : HashV → Bytes → Except Unit Address)
    (keccak : SigHashFields → HashV) (hashFn : Header → HashV)
    (h : Header) (cache : SigCache) :
    (h.extra.length < extraSeal →
      (ecrecover recover keccak hashFn h cache).1
        = Except.error DporError.missingSignature) ∧
    (ecrecover recover keccak hashFn h cache).1
      ≠ Except.error DporError.sigHashPanic := by
  by_cases hl : h.extra.length < extraSeal
  · constructor
    · intro _
      simp [ecrecover, hl]
    · simp [ecrecover, hl]
  · constructor
    · intro hcon; exact absurd hcon hl
    · unfold ecrecover
      rw [if_neg hl]
      rcases hsf : sigHashFields h with _ | f
      · exact absurd hsf (by unfold sigHashFields; rw [if_neg hl]; simp)
      · have hsome : sigHash keccak h = some (keccak f) := by
          unfold sigHash; rw [hsf]; rfl
        rw [hsome]
        rcases hr : recover (keccak f) (h.extra.drop (h.extra.length - extraSeal))
          with e | leader
        · simp [hr]
        · simp only [hr]
          by_cases hm : h.extra2.length % extraSeal = 0
          · rw [if_neg (not_not_intro hm)]
            rcases hrs : recoverSigners recover (keccak f)
                (hashFn h) (sigChunks h.extra2) []
                (sigCacheAdd cache (hashFn h) leader
                  (h.extra.drop (h.extra.length - extraSeal))) with ⟨res, cache2⟩
            cases res with
            | error e =>
              have hnp := recoverSigners_no_panic recover (keccak f) (hashFn h)
                (sigChunks h.extra2) []
                (sigCacheAdd cache (hashFn h) leader
                  (h.extra.drop (h.extra.length - extraSeal)))
              rw [hrs] at hnp
              simpa using hnp
            | ok signers => simp
          · rw [if_pos hm]
            simp

/-- Witness for C9: a concrete header with empty extra data yields the
missing-signature error and never the panic marker. -/
theorem ecrecover_total_witness :
    (ecrecover recover0 keccakW hashFn0
        { parentHash := 0, coinbase := 0, stateRoot := 0, txsRoot := 0,
          receiptsRoot := 0, logsBloom := 0, difficulty := 1, number := 3,
          gasLimit := 0, gasUsed := 0, time := 0, extra := [], extra2 := [],
          mixHash := 0, nonce := 0 } []).1
      = Except.error DporError.missingSignature ∧
    (ecrecover recover0 keccakW hashFn0
        { parentHash := 0, coinbase := 0, stateRoot := 0, txsRoot := 0,
          receiptsRoot := 0, logsBloom := 0, difficulty := 1, number := 3,
          gasLimit := 0, gasUsed := 0, time := 0, extra := [], extra2 := [],
          mixHash := 0, nonce := 0 } []).1
      ≠ Except.error DporError.sigHashPanic :=
  ⟨(ecrecover_total recover0 keccakW hashFn0 _ []).1 (by decide),
   (ecrecover_total recover0 keccakW hashFn0 _ []).2⟩

/-! ### C7 — checkpoint headers re-run the election -/

/-- C7: when `applyHeader` processes a checkpoint header
(`number % checkpointInterval == 0`) the snapshot's signer sequence is
recomputed by the election with seed the lower 64 bits of the header's hash
(as a signed 64-bit value, the semantics of `Hash().Big().Int64()`) and
view length `config.Epoch`; a non-checkpoint header leaves the signer
sequence unchanged. -/
theorem applyHeader_election (elect : ElectFn) (hashFn : Header → HashV)
    (s : DporSnapshot) (header : Header) :
    (header.number % checkpointInterval = 0 →
      (s.applyHeader elect hashFn header).signers
        = elect (s.updateRpts header) (int64OfNat (hashFn header)) s.config.epoch) ∧
    (header.number % checkpointInterval ≠ 0 →
      (s.applyHeader elect hashFn header).signers = s.signers) := by
  constructor
  · intro hcp
    simp [DporSnapshot.applyHeader, DporSnapshot.updateCandidates,
      DporSnapshot.updateView, DporSnapshot.updateRpts, hcp]
  · intro hcp
    simp [DporSnapshot.applyHeader, DporSnapshot.updateCandidates,
      DporSnapshot.updateView, hcp]

/-- Witness for C7: a checkpoint header (number 4) re-elects the committee,
a non-checkpoint header (number 5) leaves it unchanged, on a concrete
snapshot. -/
theorem applyHeader_election_witness :
    (DporSnapshot.applyHeader elect0 hashFn0
        { config := { epoch := 2 }, number := 3, hash := 0, signers := [8, 9],
          candidates := [], recents := [] }
        { parentHash := 0, coinbase := 0, stateRoot := 0, txsRoot := 0,
          receiptsRoot := 0, logsBloom := 0, difficulty := 1, number := 4,
          gasLimit := 0, gasUsed := 0, time := 0, extra := [], extra2 := [],
          mixHash := 0, nonce := 0 }).signers
      = elect0
          (DporSnapshot.updateRpts
            { config := { epoch := 2 }, number := 3, hash := 0, signers := [8, 9],
              candidates := [], recents := [] }
            { parentHash := 0, coinbase := 0, stateRoot := 0, txsRoot := 0,
              receiptsRoot := 0, logsBloom := 0, difficulty := 1, number := 4,
              gasLimit := 0, gasUsed := 0, time := 0, extra := [], extra2 := [],
              mixHash := 0, nonce := 0 })
          (int64OfNat 4) 2 ∧
    (DporSnapshot.applyHeader elect0 hashFn0
        { config := { epoch := 2 }, number := 4, hash := 0, signers := [8, 9],
          candidates := [], recents := [] }
        { parentHash := 0, coinbase := 0, stateRoot := 0, txsRoot := 0,
          receiptsRoot := 0, logsBloom := 0, difficulty := 1, number := 5,
          gasLimit := 0, gasUsed := 0, time := 0, extra := [], extra2 := [],
          mixHash := 0, nonce := 0 }).signers
      = [8, 9] :=
  ⟨(applyHeader_election elect0 hashFn0 _ _).1 (by decide),
   (applyHeader_election elect0 hashFn0 _ _).2 (by decide)⟩

/-! ### C6 — leader test of the snapshot -/

/-- Characterization of the round-lookup loop: it yields the accumulator
plus the first index of the signer, or the not-in-committee error. -/
theorem signerRoundAux_spec (a : Address) :
    ∀ (l : List Address) (r : Nat),
      signerRoundAux a l r
        = if a ∈ l then Except.ok (r + l.indexOf a)
          else Except.error DporError.signerNotInCommittee := by
  intro l
  induction l with
  | nil => intro r; simp [signerRoundAux]
  | cons b t ih =>
    intro r
    unfold signerRoundAux
    by_cases hb : b = a
    · subst hb
      simp [List.indexOf_cons_self]
    · rw [if_neg hb, ih (r + 1)]
      have hmem : a ∈ b :: t ↔ a ∈ t := by
        constructor
        · intro hm
          rcases List.mem_cons.mp hm with h1 | h1
          · exact absurd h1.symm hb
          · exact h1
        · intro hm; exact List.mem_cons_of_mem b hm
      by_cases hm : a ∈ t
      · rw [if_pos hm, if_pos (hmem.mpr hm)]
        rw [List.indexOf_cons_ne t hb]
        congr 1
        omega
      · rw [if_neg hm, if_neg (fun hc => hm (hmem.mp hc))]

/-- Counterexample for C6: with a duplicated address in the signer sequence
the address sits at the leader position `(number - 1) % epoch` of the
snapshot, yet `isLeader` returns `ok false` (it compares the first
occurrence index only), so the claimed equivalence fails as stated. -/
theorem isLeader_counterexample :
    DporSnapshot.isLeader
        { config := { epoch := 2 }, number := 1, hash := 0, signers := [5, 5],
          candidates := [], recents := [] } 5 2
      = Except.ok false ∧
    List.getD
        (DporSnapshot.signers
          { config := { epoch := 2 }, number := 1, hash := 0, signers := [5, 5],
            candidates := [], recents := [] })
        ((2 - 1) % 2) 0
      = 5 := by
  constructor
  · rfl
  · rfl

/-- C6 (amended): at height 0 `isLeader` returns the genesis error for every
address; at height `number > 0` it returns `ok true` exactly when the FIRST
occurrence of the address in the snapshot's signer sequence is at index
`(number - 1) % config.Epoch` (when the address occurs at most once, this is
exactly the claimed position test). -/
theorem isLeader_first_index (s : DporSnapshot) (addr : Address) (number : Nat)
    (hn : number ≠ 0) :
    s.isLeader addr 0 = Except.error DporError.genesisBlockNumber ∧
    (s.isLeader addr number = Except.ok true ↔
      addr ∈ s.signers ∧ s.signers.indexOf addr = (number - 1) % s.config.epoch) := by
  constructor
  · simp [DporSnapshot.isLeader]
  · unfold DporSnapshot.isLeader DporSnapshot.signerRound
    rw [if_neg hn, signerRoundAux_spec]
    by_cases hmem : addr ∈ s.signers
    · simp [hmem]
    · simp [hmem]

/-- Witness for C6: on a concrete duplicate-free snapshot, address 3 leads
block 1 (first index 0 equals `(1-1) % 2`). -/
theorem isLeader_first_index_witness :
    (DporSnapshot.isLeader
        { config := { epoch := 2 }, number := 0, hash := 0, signers := [3, 4],
          candidates := [], recents := [] } 3 0
      = Except.error DporError.genesisBlockNumber) ∧
    (DporSnapshot.isLeader
        { config := { epoch := 2 }, number := 0, hash := 0, signers := [3, 4],
          candidates := [], recents := [] } 3 1
      = Except.ok true ↔
      3 ∈ [3, 4] ∧ List.indexOf 3 [3, 4] = (1 - 1) % 2) :=
  ⟨(isLeader_first_index
      { config := { epoch := 2 }, number := 0, hash := 0, signers := [3, 4],
        candidates := [], recents := [] } 3 1 (by decide)).1,
   (isLeader_first_index
      { config := { epoch := 2 }, number := 0, hash := 0, signers := [3, 4],
        candidates := [], recents := [] } 3 1 (by decide)).2⟩

/-! ### C3 — apply checks number contiguity (and nothing else) -/

/-- The pairwise sanity loop of `apply` checks exactly number contiguity. -/
theorem contiguousNumbers_iff (l : List Header) :
    contiguousNumbers l = true
      ↔ List.Chain' (fun a b => b.number = a.number + 1) l := by
  induction l with
  | nil => simp [contiguousNumbers]
  | cons a t ih =>
    cases t with
    | nil => simp [contiguousNumbers]
    | cons b t2 =>
      rw [List.chain'_cons]
      unfold contiguousNumbers
      rw [Bool.and_eq_true, decide_eq_true_iff]
      exact and_congr Iff.rfl ih

/-- Counterexample for C3: a single header whose number is `s.Number + 1`
but whose parent hash does not match the snapshot's hash is accepted by
`apply`, so requiring parent-hash linkage for success is false: `apply`
checks numbers only. -/
theorem apply_counterexample :
    exceptIsOk
        (DporSnapshot.apply elect0 hashFn0
          { config := { epoch := 2 }, number := 10, hash := 77, signers := [1, 2],
            candidates := [], recents := [] }
          [{ parentHash := 99, coinbase := 0, stateRoot := 0, txsRoot := 0,
             receiptsRoot := 0, logsBloom := 0, difficulty := 1, number := 11,
             gasLimit := 0, gasUsed := 0, time := 0, extra := [], extra2 := [],
             mixHash := 0, nonce := 0 }])
      = true ∧
    (99 : HashV) ≠ 77 := by
  constructor
  · rfl
  · decide

/-- C3 (amended): for every snapshot and non-empty header sequence, `apply`
succeeds exactly when the numbers are contiguous (each header's number is
its predecessor's plus one) and the first header's number is `s.Number + 1`;
parent hashes are not checked. -/
theorem apply_ok_iff_contiguous (elect : ElectFn) (hashFn : Header → HashV)
    (s : DporSnapshot) (headers : List Header) (hne : headers ≠ []) :
    exceptIsOk (DporSnapshot.apply elect hashFn s headers) = true ↔
      (List.Chain' (fun a b => b.number = a.number + 1) headers ∧
       (headers.head hne).number = s.number + 1) := by
  cases headers with
  | nil => exact absurd rfl hne
  | cons h0 rest =>
    simp only [DporSnapshot.apply]
    by_cases hc : contiguousNumbers (h0 :: rest) = true
    · rw [hc]
      by_cases hh : h0.number = s.number + 1
      · simp only [Bool.not_true, Bool.false_eq_true, if_false, if_neg (not_not_intro hh)]
        simp [exceptIsOk, (contiguousNumbers_iff (h0 :: rest)).mp hc, hh]
      · simp only [Bool.not_true, Bool.false_eq_true, if_false, if_pos hh]
        simp [exceptIsOk, hh]
    · have hcf : contiguousNumbers (h0 :: rest) = false :=
        Bool.eq_false_iff.mpr hc
      rw [hcf]
      simp only [Bool.not_false, if_true]
      constructor
      · intro habs; exact absurd habs (by simp [exceptIsOk])
      · intro hch
        exact absurd ((contiguousNumbers_iff (h0 :: rest)).mpr hch.1) hc

/-- Concrete base snapshot for the C3 witness. -/
def snapW3 : DporSnapshot :=
  { config := { epoch := 2 }, number := 0, hash := 0, signers := [1, 2],
    candidates := [], recents := [] }

/-- Concrete first header (number 1) for the C3 witness. -/
def headerW3a : Header :=
  { parentHash := 0, coinbase := 0, stateRoot := 0, txsRoot := 0,
    receiptsRoot := 0, logsBloom := 0, difficulty := 1, number := 1,
    gasLimit := 0, gasUsed := 0, time := 0, extra := [], extra2 := [],
    mixHash := 0, nonce := 0 }

/-- Concrete second header (number 2) for the C3 witness. -/
def headerW3b : Header :=
  { headerW3a with parentHash := 1, number := 2 }

/-- Witness for C3 (amended): a concrete two-header chain with contiguous
numbers starting right after the snapshot is accepted. -/
theorem apply_ok_iff_contiguous_witness :
    exceptIsOk (DporSnapshot.apply elect0 hashFn0 snapW3 [headerW3a, headerW3b]) = true ↔
      (List.Chain' (fun a b => b.number = a.number + 1) [headerW3a, headerW3b] ∧
       (([headerW3a, headerW3b].head (by simp)).number = snapW3.number + 1)) :=
  apply_ok_iff_contiguous elect0 hashFn0 snapW3 [headerW3a, headerW3b] (by simp)

/-! ### C8 — handler routing by block number -/

/-- Concrete FSM stub that always reports an unknown-ancestor error. -/
def fsmUA : Nat → MsgCode → FsmOut :=
  fun _ _ => { hasOutput := false, action := .noAction, code := .noMsgCode,
               err := .unknownAncestor }

/-- Every branch of the handler reports the sync decision made up front:
sync is requested exactly when the number exceeds current + 1 and the
delivering peer is non-nil. -/
theorem handleLBFT2Msg_sync (fsm : Nat → MsgCode → FsmOut) (number current : Nat)
    (hasPeer : Bool) (code : MsgCode) :
    (handleLBFT2Msg fsm number current hasPeer code).syncRequested
      = (hasPeer && decide (number > current + 1)) := by
  rcases hr : fsm number code with ⟨ho, ac, co, er⟩
  cases er <;> cases ho <;> cases ac <;>
    (simp only [handleLBFT2Msg, hr]
     split
     · rfl
     · split
       · rfl
       · rfl)

/-- When the message survives the early drops, it is passed to the FSM and
its block is buffered in the unknown-ancestor cache exactly when the FSM
reports an unknown ancestor. -/
theorem handleLBFT2Msg_passed (fsm : Nat → MsgCode → FsmOut) (number current : Nat)
    (hasPeer : Bool) (code : MsgCode) (h1 : ¬ number < current)
    (h2 : ¬ (code = MsgCode.impeachPreprepareMsgCode ∧ hasPeer = true)) :
    (handleLBFT2Msg fsm number current hasPeer code).passedToFsm = true ∧
    ((handleLBFT2Msg fsm number current hasPeer code).bufferedUnknownAncestor = true
      ↔ (fsm number code).err = FsmErr.unknownAncestor) := by
  rcases hr : fsm number code with ⟨ho, ac, co, er⟩
  cases er <;> cases ho <;> cases ac <;>
    (simp only [handleLBFT2Msg, hr]
     rw [if_neg h1, if_neg h2]
     simp)

/-- Counterexample for C8: a message two heights ahead of the current block,
delivered by a peer, triggers the sync request, but it is still passed to
the FSM and, when the FSM reports an unknown ancestor, its block IS buffered
(in `vh.unknownAncestorBlocks`), contradicting the claim that such a message
is not buffered for later replay. -/
theorem handleLBFT2Msg_counterexample :
    (handleLBFT2Msg fsmUA 7 5 true MsgCode.prepareMsgCode).syncRequested = true ∧
    (handleLBFT2Msg fsmUA 7 5 true MsgCode.prepareMsgCode).passedToFsm = true ∧
    (handleLBFT2Msg fsmUA 7 5 true MsgCode.prepareMsgCode).bufferedUnknownAncestor
      = true := by
  refine ⟨rfl, rfl, rfl⟩

/-- C8 (amended): a message for a height below the current block number is
dropped with no effect and never reaches the FSM; a message for a height
above current + 1 from a non-nil peer triggers a sync request against that
peer, after which the message is still handed to the FSM — except an
impeach-preprepare message, which the handler accepts only from itself and
drops when a remote peer delivered it — and its block is buffered in the
unknown-ancestor cache exactly when the FSM reports an unknown ancestor
(the handler performs no other buffering of the message). -/
theorem handleLBFT2Msg_routing (fsm : Nat → MsgCode → FsmOut) (number current : Nat)
    (hasPeer : Bool) (code : MsgCode) :
    (number < current →
      handleLBFT2Msg fsm number current hasPeer code
        = { syncRequested := false, passedToFsm := false,
            bufferedUnknownAncestor := false, broadcasted := false,
            insertedAndBroadcast := false }) ∧
    (current + 1 < number → hasPeer = true →
      (handleLBFT2Msg fsm number current hasPeer code).syncRequested = true) ∧
    (current + 1 < number → hasPeer = true →
      code ≠ MsgCode.impeachPreprepareMsgCode →
      (handleLBFT2Msg fsm number current hasPeer code).passedToFsm = true ∧
      ((handleLBFT2Msg fsm number current hasPeer code).bufferedUnknownAncestor = true
        ↔ (fsm number code).err = FsmErr.unknownAncestor)) ∧
    (¬ number < current → hasPeer = true →
      code = MsgCode.impeachPreprepareMsgCode →
      handleLBFT2Msg fsm number current hasPeer code
        = { syncRequested := decide (number > current + 1), passedToFsm := false,
            bufferedUnknownAncestor := false, broadcasted := false,
            insertedAndBroadcast := false }) := by
  refine ⟨?_, ?_, ?_, ?_⟩
  · intro hlt
    have hd : decide (number > current + 1) = false := by
      simp only [decide_eq_false_iff_not]
      omega
    unfold handleLBFT2Msg
    rw [if_pos hlt, hd]
    simp
  · intro hgt hp
    rw [handleLBFT2Msg_sync, hp]
    simp only [Bool.true_and, decide_eq_true_iff]
    omega
  · intro hgt hp hcode
    exact handleLBFT2Msg_passed fsm number current hasPeer code (by omega)
      (by intro hc; exact hcode hc.1)
  · intro hge hp hcode
    unfold handleLBFT2Msg
    rw [if_neg hge, if_pos ⟨hcode, hp⟩, hp]
    simp

/-- Witness for C8 (amended): concrete instantiations of the four routing
facts — an outdated message is fully dropped, a far-future peer message
requests a sync and is still passed to the FSM, its buffering tracks the
FSM's unknown-ancestor result, and a remote impeach-preprepare message is
dropped before the FSM even when far in the future. -/
theorem handleLBFT2Msg_routing_witness :
    (handleLBFT2Msg fsmUA 3 5 true MsgCode.commitMsgCode
      = { syncRequested := false, passedToFsm := false,
          bufferedUnknownAncestor := false, broadcasted := false,
          insertedAndBroadcast := false }) ∧
    ((handleLBFT2Msg fsmUA 8 5 true MsgCode.commitMsgCode).syncRequested = true) ∧
    ((handleLBFT2Msg fsmUA 8 5 true MsgCode.commitMsgCode).passedToFsm = true ∧
      ((handleLBFT2Msg fsmUA 8 5 true MsgCode.commitMsgCode).bufferedUnknownAncestor
          = true
        ↔ (fsmUA 8 MsgCode.commitMsgCode).err = FsmErr.unknownAncestor)) ∧
    (handleLBFT2Msg fsmUA 8 5 true MsgCode.impeachPreprepareMsgCode
      = { syncRequested := decide ((8 : Nat) > 5 + 1), passedToFsm := false,
          bufferedUnknownAncestor := false, broadcasted := false,
          insertedAndBroadcast := false }) :=
  ⟨(handleLBFT2Msg_routing fsmUA 3 5 true MsgCode.commitMsgCode).1 (by decide),
   (handleLBFT2Msg_routing fsmUA 8 5 true MsgCode.commitMsgCode).2.1 (by decide) rfl,
   (handleLBFT2Msg_routing fsmUA 8 5 true MsgCode.commitMsgCode).2.2.1 (by decide) rfl
     (by decide),
   (handleLBFT2Msg_routing fsmUA 8 5 true MsgCode.impeachPreprepareMsgCode).2.2.2
     (by decide) rfl rfl⟩

/-! ### C2 — the double-sign guard never fires -/

/-- Concrete committee snapshot for the C2 scenario: self (address 5) is in
the committee. -/
def snapC2 : DporSnapshot :=
  { config := { epoch := 2 }, number := 6, hash := 0, signers := [5, 9],
    candidates := [], recents := [] }

/-- First header signed at height 7 in the C2 scenario. -/
def headerC2a : Header :=
  { parentHash := 0, coinbase := 0, stateRoot := 0, txsRoot := 0,
    receiptsRoot := 0, logsBloom := 0, difficulty := 1, number := 7,
    gasLimit := 0, gasUsed := 0, time := 0, extra := List.replicate extraSeal 0,
    extra2 := [], mixHash := 0, nonce := 100 }

/-- Second header at the same height 7 but with a different hash (different
nonce) in the C2 scenario. -/
def headerC2b : Header :=
  { headerC2a with nonce := 200 }

/-- C2 (code bug witnessed): `dpor.signedBlocks` is read by `signHeader` but
never written anywhere in the source, so the height-to-hash map stays empty
forever.  Starting from the freshly allocated empty map (as built by `New`),
signing header A at height 7 succeeds and returns the map unchanged (still
empty), after which signing header B — same height, different hash — also
succeeds instead of failing with `errMultiBlocksInOneHeight`. -/
theorem signHeader_double_sign_unchecked :
    exceptIsOk (signHeader keccakW hashFnNonce signFn0 5 [] snapC2 (some [])
        headerC2a).1 = true ∧
    (signHeader keccakW hashFnNonce signFn0 5 [] snapC2 (some []) headerC2a).2 = [] ∧
    exceptIsOk (signHeader keccakW hashFnNonce signFn0 5 [] snapC2 (some [])
        headerC2b).1 = true ∧
    exceptErrEq (signHeader keccakW hashFnNonce signFn0 5 [] snapC2 (some [])
        headerC2b).1 DporError.multiBlocksInOneHeight = false ∧
    headerC2a.number = 7 ∧ headerC2b.number = 7 ∧
    hashFnNonce headerC2a ≠ hashFnNonce headerC2b := by
  refine ⟨rfl, rfl, rfl, rfl, rfl, rfl, by decide⟩

/-! ### C1 — quorum check in verifySeal -/

/-- Unfolding of an association-list lookup over a cons cell. -/
theorem lookup_cons {β : Type} (k j : Nat) (b : β) (l : List (Nat × β)) :
    List.lookup k ((j, b) :: l) = if k = j then some b else List.lookup k l := by
  by_cases h : k = j
  · subst h
    simp [List.lookup]
  · have hb : (k == j) = false := by simpa using h
    simp [List.lookup, hb, h]

/-- Writing to the signature cache makes the written hash present. -/
theorem lookup_sigCacheAdd_self :
    ∀ (c : SigCache) (hash : HashV) (a : Address) (sig : Bytes),
      ((sigCacheAdd c hash a sig).lookup hash).isSome = true := by
  intro c
  induction c with
  | nil => intro hash a sig; simp [sigCacheAdd, lookup_cons]
  | cons entry rest ih =>
    intro hash a sig
    rcases entry with ⟨h, m⟩
    unfold sigCacheAdd
    by_cases hh : h = hash
    · rw [if_pos hh, lookup_cons, if_pos hh.symm]
      simp
    · rw [if_neg hh, lookup_cons, if_neg (fun hc => hh hc.symm)]
      exact ih hash a sig

/-- Writing to the signature cache preserves presence of any hash. -/
theorem lookup_sigCacheAdd_mono :
    ∀ (c : SigCache) (hash k : HashV) (a : Address) (sig : Bytes),
      (c.lookup k).isSome = true →
      ((sigCacheAdd c hash a sig).lookup k).isSome = true := by
  intro c
  induction c with
  | nil => intro hash k a sig hk; simp [List.lookup] at hk
  | cons entry rest ih =>
    intro hash k a sig hk
    rcases entry with ⟨h, m⟩
    rw [lookup_cons] at hk
    unfold sigCacheAdd
    by_cases hh : h = hash
    · rw [if_pos hh, lookup_cons]
      by_cases hkh : k = h
      · rw [if_pos hkh]; simp
      · rw [if_neg hkh]
        rw [if_neg hkh] at hk
        exact hk
    · rw [if_neg hh, lookup_cons]
      by_cases hkh : k = h
      · rw [if_pos hkh]; simp
      · rw [if_neg hkh]
        rw [if_neg hkh] at hk
        exact ih hash k a sig hk

/-- The signature recovery loop only adds to the cache: any hash present
before stays present in the returned cache. -/
theorem recoverSigners_lookup_mono (recover : HashV → Bytes → Except Unit Address)
    (digest hash : HashV) :
    ∀ (cs : List Bytes) (signers : List Address) (cache : SigCache) (k : HashV),
      (cache.lookup k).isSome = true →
      (((recoverSigners recover digest hash cs signers cache).2).lookup k).isSome
        = true := by
  intro cs
  induction cs with
  | nil => intro signers cache k hk; simpa [recoverSigners] using hk
  | cons c rest ih =>
    intro signers cache k hk
    unfold recoverSigners
    by_cases hc : c = List.replicate extraSeal 0
    · rw [if_pos hc]
      exact ih signers cache k hk
    · rw [if_neg hc]
      rcases hr : recover digest c with e | signer
      · simpa using hk
      · exact ih (signers ++ [signer]) (sigCacheAdd cache hash signer c) k
          (lookup_sigCacheAdd_mono cache hash k signer c hk)

/-- After a successful `ecrecover`, the returned cache contains an entry for
the header's hash (at least the leader's signature was cached). -/
theorem ecrecover_ok_lookup (recover : HashV → Bytes → Except Unit Address)
    (keccak : SigHashFields → HashV) (hashFn : Header → HashV)
    (h : Header) (cache : SigCache) (p : Address × List Address) (cache2 : SigCache)
    (hok : ecrecover recover keccak hashFn h cache = (.ok p, cache2)) :
    (cache2.lookup (hashFn h)).isSome = true := by
  unfold ecrecover at hok
  by_cases hl : h.extra.length < extraSeal
  · rw [if_pos hl] at hok
    exact absurd hok (by simp)
  · rw [if_neg hl] at hok
    simp only [] at hok
    rcases hsf : sigHash keccak h with _ | digest
    · exact absurd hsf (by unfold sigHash sigHashFields; rw [if_neg hl]; simp)
    · rw [hsf] at hok
      simp only [] at hok
      rcases hr : recover digest (h.extra.drop (h.extra.length - extraSeal))
        with e | leader
      · rw [hr] at hok
        exact absurd hok (by simp)
      · rw [hr] at hok
        simp only [] at hok
        by_cases hm : h.extra2.length % extraSeal = 0
        · rw [if_neg (not_not_intro hm)] at hok
          rcases hrs : recoverSigners recover digest (hashFn h) (sigChunks h.extra2) []
              (sigCacheAdd cache (hashFn h) leader
                (h.extra.drop (h.extra.length - extraSeal))) with ⟨res, cacheR⟩
          rw [hrs] at hok
          cases res with
          | error e => exact absurd hok (by simp)
          | ok signers =>
            have hcc : cacheR = cache2 := by
              simpa using congrArg Prod.snd hok
            have hbase := lookup_sigCacheAdd_self cache (hashFn h) leader
              (h.extra.drop (h.extra.length - extraSeal))
            have := recoverSigners_lookup_mono recover digest (hashFn h)
              (sigChunks h.extra2) []
              (sigCacheAdd cache (hashFn h) leader
                (h.extra.drop (h.extra.length - extraSeal))) (hashFn h) hbase
            rw [hrs] at this
            rwa [hcc] at this
        · rw [if_pos hm] at hok
          exact absurd hok (by simp)

/-- C1 (amended): in normal mode, for a non-genesis header whose parent
snapshot resolves, `verifySeal` succeeds only when the number `n` of
committee members with a recovered signature for the header satisfies
`3 * n > 2 * EpochLength` (first conjunct, unconditional); and whenever the
earlier checks pass (recovery succeeded, the recovered leader is the true
in-turn leader, the difficulty matches), a count failing the quorum makes
`verifySeal` return the not-enough-sigs error (second conjunct). -/
theorem verifySeal_quorum (recover : HashV → Bytes → Except Unit Address)
    (keccak : SigHashFields → HashV) (hashFn : Header → HashV) (fakeFail : Nat)
    (snap : DporSnapshot) (epoch : Nat) (header : Header) (cache : SigCache)
    (hn : header.number ≠ 0) :
    (∀ cache2,
      verifySeal recover keccak hashFn Mode.NormalMode fakeFail (Except.ok snap)
          epoch header cache
        = (Except.ok (), cache2) →
      3 * sigCountOf cache2 (hashFn header) (snap.signersOf header.number)
        > 2 * epoch) ∧
    (∀ (leader : Address) (sx : List Address) (cache1 : SigCache),
      ecrecover recover keccak hashFn header cache = (Except.ok (leader, sx), cache1) →
      snap.isLeaderOf leader header.number = Except.ok true →
      header.difficulty = diffInTurn →
      ¬ (3 * sigCountOf cache1 (hashFn header) (snap.signersOf header.number)
          > 2 * epoch) →
      (verifySeal recover keccak hashFn Mode.NormalMode fakeFail (Except.ok snap)
          epoch header cache).1
        = Except.error DporError.notEnoughSigs) := by
  constructor
  · intro cache2 hok
    unfold verifySeal at hok
    rw [if_neg hn, if_neg (by simp)] at hok
    rcases her : ecrecover recover keccak hashFn header cache with ⟨res, c1⟩
    rw [her] at hok
    simp only [] at hok
    cases res with
    | error e => exact absurd hok (by simp)
    | ok p =>
      rcases p with ⟨leader, sx⟩
      simp only [] at hok
      rcases hil : snap.isLeaderOf leader header.number with e | okv
      · rw [hil] at hok
        simp only [] at hok
        split at hok
        · exact absurd hok (by simp)
        · split at hok <;> exact absurd hok (by simp)
      · rw [hil] at hok
        simp only [] at hok
        split at hok
        · exact absurd hok (by simp)
        · split at hok
          · exact absurd hok (by simp)
          · split at hok
            · exact absurd hok (by simp)
            · rcases hac : acceptSigs hashFn header c1 (snap.signersOf header.number)
                epoch with e | accept
              · rw [hac] at hok
                exact absurd hok (by simp)
              · rw [hac] at hok
                simp only [] at hok
                by_cases hacc : accept = true
                · rw [if_pos hacc] at hok
                  have hc : c1 = cache2 := by
                    simpa using congrArg Prod.snd hok
                  subst hc
                  unfold acceptSigs at hac
                  simp only [] at hac
                  rcases hl2 : List.lookup (hashFn header) c1 with _ | s
                  · rw [hl2] at hac
                    exact absurd hac (by simp)
                  · rw [hl2] at hac
                    simp only [Except.ok.injEq] at hac
                    rw [hacc] at hac
                    have hyes : pctB * ((snap.signersOf header.number).countP
                          (fun signer => (s.lookup signer).isSome)) > pctA * epoch := by
                      have := hac.symm
                      simpa [percentagePBFT] using this
                    unfold sigCountOf
                    rw [hl2]
                    simpa [pctA, pctB] using hyes
                · rw [if_neg hacc] at hok
                  exact absurd hok (by simp)
  · intro leader sx cache1 hrec hlead hdiff hq
    unfold verifySeal
    simp only []
    rw [if_neg hn, if_neg (by simp), hrec]
    simp only []
    rw [hlead]
    simp only [exceptBoolValue]
    rw [hdiff]
    rw [if_neg (by simp)]
    rw [if_neg (by simp)]
    rw [if_neg (by simp)]
    have hs := ecrecover_ok_lookup recover keccak hashFn header cache (leader, sx)
      cache1 hrec
    rcases hl2 : List.lookup (hashFn header) cache1 with _ | s
    · rw [hl2] at hs
      simp at hs
    · unfold acceptSigs
      simp only []
      rw [hl2]
      simp only []
      unfold sigCountOf at hq
      rw [hl2] at hq
      have hno : percentagePBFT ((snap.signersOf header.number).countP
            (fun signer => (s.lookup signer).isSome)) epoch = false := by
        simp only [percentagePBFT, pctA, pctB, decide_eq_false_iff_not]
        exact hq
      rw [hno]
      simp

/-- Concrete snapshot for the C1 scenarios: epoch 4, committee [1,2,3,4]. -/
def snapC1 : DporSnapshot :=
  { config := { epoch := 4 }, number := 0, hash := 0, signers := [1, 2, 3, 4],
    candidates := [], recents := [] }

/-- Concrete header for the C1 witness: in-turn difficulty, leader seal
recovering to address 1 (the in-turn leader for number 1), no validator
signatures at all. -/
def headerC1ok : Header :=
  { parentHash := 0, coinbase := 0, stateRoot := 0, txsRoot := 0,
    receiptsRoot := 0, logsBloom := 0, difficulty := diffInTurn, number := 1,
    gasLimit := 0, gasUsed := 0, time := 0, extra := List.replicate extraSeal 0,
    extra2 := [], mixHash := 0, nonce := 0 }

/-- Concrete header for the C1 counterexample: like `headerC1ok` but with
the wrong (no-turn) difficulty. -/
def headerC1d : Header :=
  { headerC1ok with difficulty := diffNoTurn }

/-- Counterexample for C1: a header whose recovered-signature count fails
the quorum (n = 1, 3·1 ≤ 2·4) but whose difficulty is also wrong is
rejected with `errInvalidDifficulty`, not with `ErrNotEnoughSigs` — so
"whenever the count fails the quorum, verifySeal returns NotEnoughSigs" is
false as stated. -/
theorem verifySeal_counterexample :
    (verifySeal recover0 keccakW hashFn0 Mode.NormalMode 0 (Except.ok snapC1) 4
        headerC1d []).1
      = Except.error DporError.invalidDifficulty ∧
    ¬ (3 * sigCountOf
          (verifySeal recover0 keccakW hashFn0 Mode.NormalMode 0 (Except.ok snapC1) 4
            headerC1d []).2
          (hashFn0 headerC1d) (snapC1.signersOf headerC1d.number)
        > 2 * 4) := by
  refine ⟨rfl, by decide⟩

/-- Witness for C1 (amended): on a concrete header that passes recovery,
leader and difficulty checks but carries only the leader's signature
(n = 1, 3·1 ≤ 2·4), `verifySeal` returns the not-enough-sigs error. -/
theorem verifySeal_quorum_witness :
    (verifySeal recover0 keccakW hashFn0 Mode.NormalMode 0 (Except.ok snapC1) 4
        headerC1ok []).1
      = Except.error DporError.notEnoughSigs :=
  (verifySeal_quorum recover0 keccakW hashFn0 0 snapC1 4 headerC1ok []
      (by decide)).2
    1 [] [(1, [(1, List.replicate extraSeal 0)])] (by decide) (by decide) rfl
    (by decide)

/-! ### C5 — snapshot derivation decomposes -/

/-- Rebuilding a list from positional reads is the identity. -/
theorem range_map_getD (l : List Address) :
    (List.range l.length).map (fun i => l.getD i 0) = l := by
  induction l with
  | nil => simp
  | cons a t ih =>
    rw [List.length_cons, List.range_succ_eq_map, List.map_cons, List.map_map]
    simp only [List.getD_cons_zero]
    have hcomp : ((fun i => (a :: t).getD i 0) ∘ Nat.succ) = (fun i => t.getD i 0) := by
      funext i
      simp [List.getD_cons_succ]
    rw [hcomp, ih]

/-- The copy of a snapshot has exactly `config.Epoch` signer slots. -/
theorem copySnap_signers_length (s : DporSnapshot) :
    s.copySnap.signers.length = s.config.epoch := by
  simp [DporSnapshot.copySnap]

/-- A snapshot whose signer list already has `config.Epoch` entries is fixed
by `copy`. -/
theorem copySnap_eq_self (s : DporSnapshot) (hs : s.signers.length = s.config.epoch) :
    s.copySnap = s := by
  unfold DporSnapshot.copySnap
  have hr : (List.range s.config.epoch).map (fun i => s.signers.getD i 0) = s.signers := by
    rw [← hs]
    exact range_map_getD s.signers
  rw [hr]

/-- Applying a header sets the snapshot number to the header's number. -/
theorem applyHeader_number (elect : ElectFn) (hashFn : Header → HashV)
    (s : DporSnapshot) (h : Header) :
    (s.applyHeader elect hashFn h).number = h.number := by
  simp only [DporSnapshot.applyHeader, DporSnapshot.updateCandidates,
    DporSnapshot.updateView]
  split <;> rfl

/-- Applying a header sets the snapshot hash to the header's hash. -/
theorem applyHeader_hash (elect : ElectFn) (hashFn : Header → HashV)
    (s : DporSnapshot) (h : Header) :
    (s.applyHeader elect hashFn h).hash = hashFn h := by
  simp only [DporSnapshot.applyHeader, DporSnapshot.updateCandidates,
    DporSnapshot.updateView]
  split <;> rfl

/-- Applying a header never changes the configuration. -/
theorem applyHeader_config (elect : ElectFn) (hashFn : Header → HashV)
    (s : DporSnapshot) (h : Header) :
    (s.applyHeader elect hashFn h).config = s.config := by
  simp only [DporSnapshot.applyHeader, DporSnapshot.updateCandidates,
    DporSnapshot.updateView]
  split <;> rfl

/-- When the election honors its length contract, applying a header
preserves fullness of the signer list. -/
theorem applyHeader_signers_length (elect : ElectFn) (hashFn : Header → HashV)
    (helect : ∀ r sd vl, (elect r sd vl).length = vl)
    (s : DporSnapshot) (h : Header) (hs : s.signers.length = s.config.epoch) :
    (s.applyHeader elect hashFn h).signers.length
      = (s.applyHeader elect hashFn h).config.epoch := by
  simp only [DporSnapshot.applyHeader, DporSnapshot.updateCandidates,
    DporSnapshot.updateView]
  split
  · exact helect _ _ _
  · exact hs

/-- Folding `applyHeader` never changes the configuration. -/
theorem foldl_apply_config (elect : ElectFn) (hashFn : Header → HashV) :
    ∀ (l : List Header) (s : DporSnapshot),
      (l.foldl (fun acc hd => acc.applyHeader elect hashFn hd) s).config = s.config := by
  intro l
  induction l with
  | nil => intro s; rfl
  | cons h t ih =>
    intro s
    rw [List.foldl_cons, ih, applyHeader_config]

/-- Folding `applyHeader` preserves fullness of the signer list. -/
theorem foldl_apply_signers_length (elect : ElectFn) (hashFn : Header → HashV)
    (helect : ∀ r sd vl, (elect r sd vl).length = vl) :
    ∀ (l : List Header) (s : DporSnapshot), s.signers.length = s.config.epoch →
      (l.foldl (fun acc hd => acc.applyHeader elect hashFn hd) s).signers.length
        = (l.foldl (fun acc hd => acc.applyHeader elect hashFn hd) s).config.epoch := by
  intro l
  induction l with
  | nil => intro s hs; exact hs
  | cons h t ih =>
    intro s hs
    rw [List.foldl_cons]
    exact ih _ (applyHeader_signers_length elect hashFn helect s h hs)

/-- The number of a fold over a non-empty header list is the last header's
number. -/
theorem foldl_apply_number (elect : ElectFn) (hashFn : Header → HashV) :
    ∀ (t : List Header) (h : Header) (s : DporSnapshot),
      ((h :: t).foldl (fun acc hd => acc.applyHeader elect hashFn hd) s).number
        = (t.getLastD h).number := by
  intro t
  induction t with
  | nil => intro h s; exact applyHeader_number elect hashFn s h
  | cons b t2 ih =>
    intro h s
    rw [List.foldl_cons, List.getLastD_cons]
    exact ih b (s.applyHeader elect hashFn h)

/-- The hash of a fold over a non-empty header list is the last header's
hash. -/
theorem foldl_apply_hash (elect : ElectFn) (hashFn : Header → HashV) :
    ∀ (t : List Header) (h : Header) (s : DporSnapshot),
      ((h :: t).foldl (fun acc hd => acc.applyHeader elect hashFn hd) s).hash
        = hashFn (t.getLastD h) := by
  intro t
  induction t with
  | nil => intro h s; exact applyHeader_hash elect hashFn s h
  | cons b t2 ih =>
    intro h s
    rw [List.foldl_cons, List.getLastD_cons]
    exact ih b (s.applyHeader elect hashFn h)

/-- Last element of an appended list with a non-empty right part. -/
theorem getLastD_append_cons (t1 : List Header) (hB : Header) (t2 : List Header) :
    ∀ (d : Header), (t1 ++ hB :: t2).getLastD d = t2.getLastD hB := by
  induction t1 with
  | nil => intro d; rw [List.nil_append, List.getLastD_cons]
  | cons a t ih =>
    intro d
    rw [List.cons_append, List.getLastD_cons]
    exact ih a

/-- Last-element view of a non-empty list via `getLastD`. -/
theorem getLast?_cons_eq_getLastD (a : Header) (l : List Header) :
    (a :: l).getLast? = some (l.getLastD a) := by
  induction l generalizing a with
  | nil => rfl
  | cons b t ih =>
    rw [List.getLast?_cons_cons, List.getLastD_cons]
    exact ih b

/-- Evaluation of `apply` on a non-empty, contiguity-checked header list. -/
theorem apply_cons_eq (elect : ElectFn) (hashFn : Header → HashV)
    (s : DporSnapshot) (h0 : Header) (rest : List Header)
    (hc : contiguousNumbers (h0 :: rest) = true) (hh : h0.number = s.number + 1) :
    DporSnapshot.apply elect hashFn s (h0 :: rest)
      = Except.ok
          { (h0 :: rest).foldl (fun acc hd => acc.applyHeader elect hashFn hd)
              s.copySnap with
            number := (rest.getLastD h0).number,
            hash := hashFn (rest.getLastD h0) } := by
  simp only [DporSnapshot.apply]
  rw [hc]
  simp only [Bool.not_true, Bool.false_eq_true, if_false]
  rw [if_neg (not_not_intro hh)]

/-- Inversion of a successful `apply` on a non-empty header list. -/
theorem apply_cons_ok_inv (elect : ElectFn) (hashFn : Header → HashV)
    (s t : DporSnapshot) (h0 : Header) (rest : List Header)
    (ht : DporSnapshot.apply elect hashFn s (h0 :: rest) = Except.ok t) :
    contiguousNumbers (h0 :: rest) = true ∧ h0.number = s.number + 1 ∧
    t = { (h0 :: rest).foldl (fun acc hd => acc.applyHeader elect hashFn hd)
            s.copySnap with
          number := (rest.getLastD h0).number,
          hash := hashFn (rest.getLastD h0) } := by
  by_cases hc : contiguousNumbers (h0 :: rest) = true
  · by_cases hh : h0.number = s.number + 1
    · refine ⟨hc, hh, ?_⟩
      rw [apply_cons_eq elect hashFn s h0 rest hc hh] at ht
      exact (Except.ok.injEq .. ▸ ht).symm ▸ rfl
    · exfalso
      simp only [DporSnapshot.apply] at ht
      rw [hc] at ht
      simp only [Bool.not_true, Bool.false_eq_true, if_false] at ht
      rw [if_pos hh] at ht
      exact Except.noConfusion ht
  · exfalso
    have hcf : contiguousNumbers (h0 :: rest) = false := Bool.eq_false_iff.mpr hc
    simp only [DporSnapshot.apply] at ht
    rw [hcf] at ht
    simp only [Bool.not_false, if_true] at ht
    exact Except.noConfusion ht

/-- C5: snapshot derivation decomposes.  For every snapshot `s`, every
header sequence accepted by `apply`, and every split point `1 ≤ k < n`,
applying the whole sequence equals applying the first `k` headers and then
the rest to the intermediate snapshot.  The election parameter is assumed
to honor its length contract (spec section 4.2: exactly `viewLength`
addresses), which holds for the repository's election. -/
theorem apply_decomposes (elect : ElectFn) (hashFn : Header → HashV)
    (helect : ∀ (r : RPTs) (sd : Int) (vl : Nat), (elect r sd vl).length = vl)
    (s t : DporSnapshot) (headers : List Header) (k : Nat)
    (hk1 : 1 ≤ k) (hk2 : k < headers.length)
    (happly : DporSnapshot.apply elect hashFn s headers = Except.ok t) :
    ∃ m, DporSnapshot.apply elect hashFn s (headers.take k) = Except.ok m ∧
         DporSnapshot.apply elect hashFn m (headers.drop k) = Except.ok t := by
  have hsplit : headers.take k ++ headers.drop k = headers := List.take_append_drop k headers
  obtain ⟨hA, t1, hl1⟩ : ∃ a l, headers.take k = a :: l := by
    cases htk : headers.take k with
    | nil =>
      exfalso
      have hlen := congrArg List.length htk
      rw [List.length_take] at hlen
      have hcase : k = 0 ∨ headers = [] := by simpa using hlen
      rcases hcase with h0 | hnil
      · omega
      · rw [hnil] at hk2
        simp at hk2
    | cons a l => exact ⟨a, l, rfl⟩
  obtain ⟨hB, t2, hl2⟩ : ∃ a l, headers.drop k = a :: l := by
    cases htk : headers.drop k with
    | nil =>
      exfalso
      have hlen := congrArg List.length htk
      rw [List.length_drop] at hlen
      simp only [List.length_nil] at hlen
      omega
    | cons a l => exact ⟨a, l, rfl⟩
  have hconcat : headers = hA :: (t1 ++ hB :: t2) := by
    rw [← hsplit, hl1, hl2]
    rfl
  rw [hconcat] at happly
  obtain ⟨hcAll, hhA, htEq⟩ := apply_cons_ok_inv elect hashFn s t hA (t1 ++ hB :: t2) happly
  have hch : List.Chain' (fun a b => b.number = a.number + 1) ((hA :: t1) ++ (hB :: t2)) := by
    have hx := (contiguousNumbers_iff (hA :: (t1 ++ hB :: t2))).mp hcAll
    simpa using hx
  rw [List.chain'_append] at hch
  obtain ⟨hch1, hch2, hjun⟩ := hch
  have hR : hB.number = (t1.getLastD hA).number + 1 :=
    hjun (t1.getLastD hA) (by rw [getLast?_cons_eq_getLastD]; rfl) hB rfl
  have hc1 : contiguousNumbers (hA :: t1) = true := (contiguousNumbers_iff _).mpr hch1
  have hc2 : contiguousNumbers (hB :: t2) = true := (contiguousNumbers_iff _).mpr hch2
  have happly1 := apply_cons_eq elect hashFn s hA t1 hc1 hhA
  have hn := foldl_apply_number elect hashFn t1 hA s.copySnap
  have hh2 := foldl_apply_hash elect hashFn t1 hA s.copySnap
  have hm_eq :
      ({ (hA :: t1).foldl (fun acc hd => acc.applyHeader elect hashFn hd) s.copySnap with
         number := (t1.getLastD hA).number,
         hash := hashFn (t1.getLastD hA) } : DporSnapshot)
        = (hA :: t1).foldl (fun acc hd => acc.applyHeader elect hashFn hd) s.copySnap := by
    rw [← hn, ← hh2]
  rw [hm_eq] at happly1
  have hXfull :
      ((hA :: t1).foldl (fun acc hd => acc.applyHeader elect hashFn hd)
          s.copySnap).signers.length
        = ((hA :: t1).foldl (fun acc hd => acc.applyHeader elect hashFn hd)
            s.copySnap).config.epoch :=
    foldl_apply_signers_length elect hashFn helect (hA :: t1) s.copySnap
      (copySnap_signers_length s)
  have hCopyX := copySnap_eq_self _ hXfull
  have hhB2 : hB.number
      = ((hA :: t1).foldl (fun acc hd => acc.applyHeader elect hashFn hd)
          s.copySnap).number + 1 := by
    rw [hn]
    exact hR
  have happly2 := apply_cons_eq elect hashFn
    ((hA :: t1).foldl (fun acc hd => acc.applyHeader elect hashFn hd) s.copySnap)
    hB t2 hc2 hhB2
  rw [hCopyX, ← List.foldl_append] at happly2
  refine ⟨_, by rw [hl1]; exact happly1, ?_⟩
  rw [hl2, happly2, htEq]
  have hlast : (t1 ++ hB :: t2).getLastD hA = t2.getLastD hB :=
    getLastD_append_cons t1 hB t2 hA
  rw [hlast]
  rfl

/-- Concrete base snapshot for the C5 witness. -/
def snapW5 : DporSnapshot :=
  { config := { epoch := 2 }, number := 0, hash := 0, signers := [1, 2],
    candidates := [], recents := [] }

/-- Witness for C5: applying a concrete two-header chain to a concrete
snapshot in one call equals applying the first header and then the second
to the intermediate snapshot. -/
theorem apply_decomposes_witness :
    ∃ m, DporSnapshot.apply elect0 hashFn0 snapW5 ([headerW3a, headerW3b].take 1)
          = Except.ok m ∧
         DporSnapshot.apply elect0 hashFn0 m ([headerW3a, headerW3b].drop 1)
          = Except.ok
              ((DporSnapshot.apply elect0 hashFn0 snapW5 [headerW3a, headerW3b]).toOption.getD
                snapW5) :=
  apply_decomposes elect0 hashFn0 (fun r sd vl => List.length_replicate ..)
    snapW5 _ [headerW3a, headerW3b] 1 (by decide) (by decide) (by rfl)

end DporModel
